import Mathlib

/-!
Verification of the OBSReplayBufferXtender script (`ReplayBufferXtender.py`).

The script logic is shallowly embedded over `List Char` (Python `str`):

* `sanitize_string` models `ReplayBufferXtender.sanitize_string` (lines 101-108);
* `move_video` models `ReplayBufferXtender.move_video` (lines 110-152), with the
  OS-query results (last replay path, focused window text, executable lookup,
  file-version-info lookup) passed in as parameters and the filesystem effects
  (`os.rename`, `os.mkdir`) reported in a `MoveResult` record;
* `event_handler` models `ReplayBufferXtender.event_handler` (lines 24-32), with
  a Python exception modelled as the `Except.error` carrying its string form;
* `get_focused_application_name` models lines 80-99 together with
  `get_focused_window_executable_path` (lines 64-78): a lookup that raises is
  modelled as `none`, and an exception escaping the function is modelled by the
  function returning `none`.

Python standard-library primitives used by the script (`str.replace`,
`str.strip`, the substring test `in`, `os.path.split`, `os.path.join` on
Windows, i.e. `ntpath`) are modelled below as executable Lean functions.
-/

namespace ReplayBufferXtender

/-- Whitespace characters removed by Python `str.strip()` (the ASCII whitespace
set; non-ASCII Unicode spaces are not modelled, no string in this development
contains one). -/
def isPySpace (c : Char) : Bool :=
  c = ' ' || c = '\t' || c = '\n' || c = '\r' || c.toNat = 11 || c.toNat = 12

/-- Models Python `str.strip()`: remove leading and trailing whitespace. -/
def pyStrip (s : List Char) : List Char :=
  ((s.dropWhile isPySpace).reverse.dropWhile isPySpace).reverse

/-- Fuel-indexed core of `pyReplace`. Each step consumes at least one character
of the string, so fuel `s.length` is always sufficient; the fuel-exhausted arm
(unreachable from `pyReplace`) returns `[]`. -/
def pyReplaceAux (pat rep : List Char) : Nat → List Char → List Char
  | _, [] => []
  | 0, _ => []
  | n + 1, c :: cs =>
    if !pat.isEmpty && pat.isPrefixOf (c :: cs) then
      rep ++ pyReplaceAux pat rep n (cs.drop (pat.length - 1))
    else
      c :: pyReplaceAux pat rep n cs

/-- Models Python `str.replace(pat, rep)`: replace every non-overlapping
occurrence of `pat`, scanning left to right. (For an empty `pat` Python
interleaves `rep` everywhere; the script only ever replaces the non-empty
patterns `disallowed_chars` and `"Replay"`, and this model returns the string
unchanged in that unused case.) -/
def pyReplace (pat rep s : List Char) : List Char :=
  pyReplaceAux pat rep s.length s

/-- Models the Python substring test `pat in s`. -/
def pyContains (pat : List Char) : List Char → Bool
  | [] => pat.isEmpty
  | c :: cs => pat.isPrefixOf (c :: cs) || pyContains pat cs

/-- The class attribute `disallowed_chars` (lines 18-19), in source order:
the nine reserved characters, then `".exe"`, then `"$"`. -/
def disallowed_chars : List (List Char) :=
  [['\\'], ['/'], [':'], ['*'], ['?'], ['"'], ['<'], ['>'], ['|'],
   ['.', 'e', 'x', 'e'], ['$']]

/-- The nine single filesystem-reserved characters named by the spec. -/
def reserved_chars : List Char :=
  ['\\', '/', ':', '*', '?', '"', '<', '>', '|']

/-- One iteration of the loop in `sanitize_string` (lines 105-107):
`if char in txt: txt = txt.replace(char, "")`. -/
def sanitize_step (txt ch : List Char) : List Char :=
  if pyContains ch txt then pyReplace ch [] txt else txt

/-- Models `ReplayBufferXtender.sanitize_string` (lines 101-108): one removal
pass per element of `disallowed_chars`, then `str.strip()`. -/
def sanitize_string (txt : List Char) : List Char :=
  pyStrip (List.foldl sanitize_step txt disallowed_chars)

/-- Windows path separators recognised by `ntpath`. -/
def isSep (c : Char) : Bool :=
  c = '\\' || c = '/'

/-- Models `ntpath.splitdrive` for drive-letter paths (`"C:..."`). UNC roots
(`"\\server\share"`) are not modelled; no path in the script's documented use
is a UNC path. -/
def ntsplitdrive (p : List Char) : List Char × List Char :=
  match p with
  | a :: b :: rest => if b = ':' then ([a, b], rest) else ([], a :: b :: rest)
  | _ => ([], p)

/-- Does the list start with a path separator? -/
def startsWithSep (l : List Char) : Bool :=
  match l with
  | c :: _ => isSep c
  | [] => false

/-- Does the list end with a path separator or a colon? -/
def endsWithSepOrColon (l : List Char) : Bool :=
  match l.getLast? with
  | some c => isSep c || c = ':'
  | none => false

/-- Models `os.path.split` on Windows (`ntpath.split`): split off the drive,
cut after the last separator, strip trailing separators from the head unless
that would empty it. -/
def ntsplit (p : List Char) : List Char × List Char :=
  let dr := ntsplitdrive p
  let tail := (dr.2.reverse.takeWhile (fun c => !isSep c)).reverse
  let head := dr.2.take (dr.2.length - tail.length)
  let stripped := (head.reverse.dropWhile isSep).reverse
  (dr.1 ++ (if stripped.isEmpty then head else stripped), tail)

/-- Models the two-argument `os.path.join` on Windows (`ntpath.join`) for
drive-letter paths: an absolute second argument replaces the first, otherwise
a `'\'` separator is inserted unless the first already ends in a separator or
colon. (Drive comparison is exact rather than case-insensitive, and the UNC
fix-up is not modelled; neither case is exercised by the script's paths.) -/
def ntjoin (path p : List Char) : List Char :=
  let rd := ntsplitdrive path
  let pd := ntsplitdrive p
  if startsWithSep pd.2 then
    (if !pd.1.isEmpty || rd.1.isEmpty then pd.1 else rd.1) ++ pd.2
  else if !pd.1.isEmpty && pd.1 != rd.1 then
    pd.1 ++ pd.2
  else
    rd.1 ++ (if !rd.2.isEmpty && !endsWithSepOrColon rd.2 then rd.2 ++ ['\\'] else rd.2) ++ pd.2

/-- The script's configuration (class attributes, lines 15-17): optional base
directory override, the prepend-name flag, and the Windowsapps-fallback flag.
`base_dir` is `none` before `script_update` runs and may be set to the empty
string by it. -/
structure Config where
  base_dir : Option (List Char)
  prepend_window_name : Bool
  use_windowsapps : Bool
  deriving DecidableEq

/-- Python truthiness of `self.base_dir` (`elif self.base_dir:` and
`if self.base_dir:`, lines 131 and 141): set and non-empty. -/
def base_dir_set (cfg : Config) : Bool :=
  match cfg.base_dir with
  | some d => !d.isEmpty
  | none => false

/-- The filesystem effect of one `move_video` run: the path the source file is
renamed to, and the directory whose existence is ensured at lines 147-149
(`none` when the early return at lines 132-134 fires, before that code). -/
structure MoveResult where
  finalPath : List Char
  ensuredDir : Option (List Char)
  deriving DecidableEq

/-- Models `ReplayBufferXtender.get_focused_window_name` (lines 53-62) with the
foreground window's title text passed in. -/
def get_focused_window_name (w_text : List Char) : List Char :=
  sanitize_string w_text

/-- Models `ReplayBufferXtender.get_focused_application_name` (lines 80-99).
`exe_lookup` is the result of `get_focused_window_executable_path`
(lines 64-78): `none` means that lookup raised, and since it is called at
line 86, outside the `try` block, the exception escapes (result `none`).
`version_info` is the file description obtained by the two
`GetFileVersionInfo` calls inside the `try`: `none` means some part of that
lookup raised, which the bare `except` turns into the empty string. -/
def get_focused_application_name (exe_lookup version_info : Option (List Char)) :
    Option (List Char) :=
  match exe_lookup with
  | none => none
  | some _ => some (sanitize_string (version_info.getD []))

/-- The value of `sub_dir` after lines 122-123: the application name if
non-empty, else the window title name. Defined for the success case of the
executable lookup (the only case in which line 123 is reached). -/
def resolved_label (version_info : Option (List Char)) (w_text : List Char) : List Char :=
  let sub_dir := sanitize_string (version_info.getD [])
  if !sub_dir.isEmpty then sub_dir else get_focused_window_name w_text

/-- Lines 118 and 126-152 of `move_video`, after `sub_dir` has been resolved.
The Python nested `if`/`elif` with an early `return` is rendered as: the early
return fires exactly when the label is empty, `use_windowsapps` is off and
`base_dir` is truthy; otherwise the label is rewritten to `"Windowsapps"`
exactly when it is empty and `use_windowsapps` is on, and control falls
through to lines 136-152 (in particular, an empty label with both options
falsy falls through with `sub_dir` still empty). -/
def move_video_resolved (cfg : Config) (lr_orig_fullpath sub_dir : List Char) : MoveResult :=
  let sp := ntsplit lr_orig_fullpath
  if sub_dir.isEmpty && !cfg.use_windowsapps && base_dir_set cfg then
    { finalPath := ntjoin (cfg.base_dir.getD []) sp.2, ensuredDir := none }
  else
    let sub_dir := if sub_dir.isEmpty && cfg.use_windowsapps then "Windowsapps".toList else sub_dir
    let lr_fname := if cfg.prepend_window_name then pyReplace "Replay".toList sub_dir sp.2 else sp.2
    let lr_base_dir := if base_dir_set cfg then cfg.base_dir.getD [] else sp.1
    let lr_dir := ntjoin lr_base_dir sub_dir
    { finalPath := ntjoin lr_dir lr_fname, ensuredDir := some lr_dir }

/-- Models `ReplayBufferXtender.move_video` (lines 110-152). `lr_orig_fullpath`
is the value returned by `get_last_replay_path`; `exe_lookup`, `version_info`
and `w_text` feed the identity resolution of lines 122-123. The result is
`none` when `get_focused_application_name` raises (that exception escapes
`move_video`, which has no handler). -/
def move_video (cfg : Config) (lr_orig_fullpath : List Char)
    (exe_lookup version_info : Option (List Char)) (w_text : List Char) :
    Option MoveResult :=
  match get_focused_application_name exe_lookup version_info with
  | none => none
  | some app =>
    some (move_video_resolved cfg lr_orig_fullpath
      (if !app.isEmpty then app else get_focused_window_name w_text))

/-- The destination root of lines 140-144: the configured base directory if
truthy, else the source file's original directory. -/
def dest_root (cfg : Config) (lr_orig_fullpath : List Char) : List Char :=
  if base_dir_set cfg then cfg.base_dir.getD [] else (ntsplit lr_orig_fullpath).1

/-- Models `ReplayBufferXtender.event_handler` (lines 24-32). `saved_event_id`
stands for the host constant `OBS_FRONTEND_EVENT_REPLAY_BUFFER_SAVED`; `mv` is
the outcome of the guarded `self.move_video()` call (an `Except.error` carries
the string form of the Python exception). The result's `Except` layer is the
exception channel of `event_handler` itself: `Except.ok` means it returned
normally, and the payload is the line printed by `print(e)`, if any. -/
def event_handler (event saved_event_id : Nat) (mv : Except (List Char) MoveResult) :
    Except (List Char) (Option (List Char)) :=
  if event = saved_event_id then
    match mv with
    | Except.ok _ => Except.ok none
    | Except.error e => Except.ok (some e)
  else
    Except.ok none

/-! ### Helper lemmas about the string primitives -/

theorem pyReplaceAux_sublist (pat : List Char) (fuel : Nat) (s : List Char) :
    List.Sublist (pyReplaceAux pat [] fuel s) s := by
  induction fuel generalizing s with
  | zero => cases s <;> simp [pyReplaceAux]
  | succ n ih =>
    cases s with
    | nil => simp [pyReplaceAux]
    | cons c cs =>
      rw [pyReplaceAux]
      split
      · have h1 : List.Sublist (pyReplaceAux pat [] n (cs.drop (pat.length - 1))) cs :=
          (ih _).trans (List.drop_sublist _ _)
        simpa using h1.trans (List.sublist_cons_self c cs)
      · exact List.Sublist.cons₂ c (ih cs)

theorem pyReplace_sublist (pat s : List Char) :
    List.Sublist (pyReplace pat [] s) s :=
  pyReplaceAux_sublist pat s.length s

theorem pyReplaceAux_singleton_not_mem (c : Char) (fuel : Nat) (s : List Char) :
    c ∉ pyReplaceAux [c] [] fuel s := by
  induction fuel generalizing s with
  | zero => cases s <;> simp [pyReplaceAux]
  | succ n ih =>
    cases s with
    | nil => simp [pyReplaceAux]
    | cons b cs =>
      rw [pyReplaceAux]
      cases hbe : c == b with
      | true =>
        have hg : ((!(List.isEmpty [c])) && List.isPrefixOf [c] (b :: cs)) = true := by
          simp [List.isPrefixOf, hbe]
        rw [if_pos hg]
        simpa using ih cs
      | false =>
        have hg : ((!(List.isEmpty [c])) && List.isPrefixOf [c] (b :: cs)) = false := by
          simp [List.isPrefixOf, hbe]
        rw [if_neg (by simp [List.isPrefixOf, hbe])]
        intro hmem
        rcases List.mem_cons.mp hmem with h | h
        · subst h
          simp at hbe
        · exact ih cs h

theorem pyReplace_singleton_not_mem (c : Char) (s : List Char) :
    c ∉ pyReplace [c] [] s :=
  pyReplaceAux_singleton_not_mem c s.length s

theorem pyContains_iff (pat s : List Char) : pyContains pat s = true ↔ pat <:+: s := by
  induction s with
  | nil => simp [pyContains, List.isEmpty_iff]
  | cons c cs ih =>
    rw [pyContains, List.infix_cons_iff]
    constructor
    · intro h
      rcases Bool.or_eq_true_iff.mp h with h | h
      · exact Or.inl (List.isPrefixOf_iff_prefix.mp h)
      · exact Or.inr (ih.mp h)
    · intro h
      rcases h with h | h
      · exact Bool.or_eq_true_iff.mpr (Or.inl (List.isPrefixOf_iff_prefix.mpr h))
      · exact Bool.or_eq_true_iff.mpr (Or.inr (ih.mpr h))

theorem singleton_infix_iff (c : Char) (l : List Char) : [c] <:+: l ↔ c ∈ l := by
  constructor
  · intro h
    exact h.sublist.subset (by simp)
  · intro h
    obtain ⟨s, t, rfl⟩ := List.append_of_mem h
    exact ⟨s, t, by simp⟩

theorem pyContains_singleton_iff (c : Char) (l : List Char) :
    pyContains [c] l = true ↔ c ∈ l :=
  (pyContains_iff [c] l).trans (singleton_infix_iff c l)

theorem pyStrip_sublist (s : List Char) : List.Sublist (pyStrip s) s := by
  have h1 : List.Sublist ((s.dropWhile isPySpace).reverse.dropWhile isPySpace).reverse
      ((s.dropWhile isPySpace).reverse.reverse) :=
    (List.dropWhile_sublist _).reverse
  rw [List.reverse_reverse] at h1
  exact h1.trans (List.dropWhile_sublist _)

theorem sanitize_step_sublist (t ch : List Char) :
    List.Sublist (sanitize_step t ch) t := by
  rw [sanitize_step]
  split
  · exact pyReplace_sublist ch t
  · exact List.Sublist.refl t

theorem foldl_sanitize_step_sublist (l : List (List Char)) (t : List Char) :
    List.Sublist (List.foldl sanitize_step t l) t := by
  induction l generalizing t with
  | nil => exact List.Sublist.refl t
  | cons a m ih =>
    rw [List.foldl_cons]
    exact (ih _).trans (sanitize_step_sublist t a)

theorem sanitize_step_singleton_not_mem (c : Char) (t : List Char) :
    c ∉ sanitize_step t [c] := by
  rw [sanitize_step]
  split
  · exact pyReplace_singleton_not_mem c t
  · intro hmem
    rename_i hguard
    exact hguard ((pyContains_singleton_iff c t).mpr hmem)

/-- Core removal property: a character whose singleton pattern is in
`disallowed_chars` never survives `sanitize_string`. -/
theorem sanitize_no_single (c : Char) (h : [c] ∈ disallowed_chars) (s : List Char) :
    c ∉ sanitize_string s := by
  obtain ⟨l1, l2, hD⟩ := List.append_of_mem h
  intro hc
  have h1 : c ∈ List.foldl sanitize_step s disallowed_chars :=
    (pyStrip_sublist _).subset hc
  rw [hD, List.foldl_append, List.foldl_cons] at h1
  exact sanitize_step_singleton_not_mem c (List.foldl sanitize_step s l1)
    ((foldl_sanitize_step_sublist l2 _).subset h1)

theorem dropWhile_dropWhile (p : Char → Bool) (l : List Char) :
    (l.dropWhile p).dropWhile p = l.dropWhile p := by
  induction l with
  | nil => rfl
  | cons a t ih =>
    by_cases h : p a
    · simp [List.dropWhile_cons, h, ih]
    · simp [List.dropWhile_cons, h]

theorem dropWhile_head_false (p : Char → Bool) (l : List Char) (a : Char) (t : List Char)
    (h : l.dropWhile p = a :: t) : p a = false := by
  induction l with
  | nil => simp at h
  | cons b u ih =>
    rw [List.dropWhile_cons] at h
    split at h
    · exact ih h
    · cases h
      simp_all

theorem dropWhile_eq_self_of_heads_false (p : Char → Bool) (l : List Char)
    (h : ∀ a t, l = a :: t → p a = false) : l.dropWhile p = l := by
  cases l with
  | nil => rfl
  | cons a t => simp [List.dropWhile_cons, h a t rfl]

theorem pyStrip_head_false (l : List Char) (a : Char) (t : List Char)
    (h : pyStrip l = a :: t) : isPySpace a = false := by
  have h1 : (pyStrip l).head? = some a := by rw [h]; rfl
  rw [pyStrip, List.head?_reverse] at h1
  have hne : (l.dropWhile isPySpace).reverse.dropWhile isPySpace ≠ [] := by
    intro h0
    rw [h0] at h1
    simp at h1
  have hsuf : (l.dropWhile isPySpace).reverse.dropWhile isPySpace <:+
      (l.dropWhile isPySpace).reverse := List.dropWhile_suffix _
  obtain ⟨pre, hpre⟩ := hsuf
  have h2 : ((l.dropWhile isPySpace).reverse).getLast? = some a := by
    rw [← hpre, List.getLast?_append_of_ne_nil _ hne]
    exact h1
  rw [List.getLast?_reverse] at h2
  cases hw : l.dropWhile isPySpace with
  | nil => rw [hw] at h2; simp at h2
  | cons b u =>
    rw [hw] at h2
    simp only [List.head?_cons, Option.some.injEq] at h2
    exact h2 ▸ dropWhile_head_false isPySpace l b u hw

theorem pyStrip_idem (s : List Char) : pyStrip (pyStrip s) = pyStrip s := by
  have hz : (pyStrip s).dropWhile isPySpace = pyStrip s :=
    dropWhile_eq_self_of_heads_false isPySpace (pyStrip s)
      (fun a t h => pyStrip_head_false s a t h)
  have hrev : (pyStrip s).reverse = (s.dropWhile isPySpace).reverse.dropWhile isPySpace := by
    rw [pyStrip, List.reverse_reverse]
  calc pyStrip (pyStrip s)
      = (((pyStrip s).dropWhile isPySpace).reverse.dropWhile isPySpace).reverse := rfl
    _ = ((pyStrip s).reverse.dropWhile isPySpace).reverse := by rw [hz]
    _ = (((s.dropWhile isPySpace).reverse.dropWhile isPySpace).dropWhile isPySpace).reverse := by
          rw [hrev]
    _ = ((s.dropWhile isPySpace).reverse.dropWhile isPySpace).reverse := by
          rw [dropWhile_dropWhile]
    _ = pyStrip s := rfl

/-- `sanitize_string` output carries no surrounding whitespace: stripping it
again changes nothing. -/
theorem sanitize_stripped (s : List Char) :
    pyStrip (sanitize_string s) = sanitize_string s :=
  pyStrip_idem (List.foldl sanitize_step s disallowed_chars)

theorem pyContains_eq_false_of_not_mem (c : Char) (t : List Char) (h : c ∉ t) :
    pyContains [c] t = false := by
  cases hc : pyContains [c] t with
  | false => rfl
  | true => exact absurd ((pyContains_singleton_iff c t).mp hc) h

theorem sanitize_step_eq_self (t ch : List Char) (h : pyContains ch t = false) :
    sanitize_step t ch = t := by
  rw [sanitize_step, h]
  simp

theorem foldl_sanitize_step_fixed (t : List Char) (l : List (List Char))
    (h : ∀ ch ∈ l, sanitize_step t ch = t) :
    List.foldl sanitize_step t l = t := by
  induction l with
  | nil => rfl
  | cons a m ih =>
    rw [List.foldl_cons, h a (by simp)]
    exact ih (fun ch hch => h ch (by simp [hch]))

/-! ### Claim theorems: the sanitizer -/

/-- C10: for every input string, the output of `sanitize_string` contains none
of the nine single reserved characters `\ / : * ? " < > |` — each single
character is removed in its own full pass, and every later pass only ever
deletes characters, so removed single characters cannot reappear. -/
theorem sanitize_string_no_reserved_single_chars (s : List Char) (c : Char)
    (h : c ∈ reserved_chars) : c ∉ sanitize_string s := by
  apply sanitize_no_single
  fin_cases h <;> decide

/-- Witness for `sanitize_string_no_reserved_single_chars` at `c = '\'` and
`s = "a\b"`. -/
theorem sanitize_string_no_reserved_single_chars_witness :
    '\\' ∈ reserved_chars ∧ '\\' ∉ sanitize_string "a\\b".toList :=
  ⟨by decide, sanitize_string_no_reserved_single_chars "a\\b".toList '\\' (by decide)⟩

/-- C2 counterexample: on input `".ex$e"` the sanitizer outputs `".exe"` — the
pass removing `"$"` runs after the pass removing `".exe"` and splices the rest
together, so the output does contain the disallowed substring `".exe"`. -/
theorem sanitize_string_exe_counterexample :
    sanitize_string ".ex$e".toList = ".exe".toList ∧
    pyContains ".exe".toList (sanitize_string ".ex$e".toList) = true := by
  constructor
  · rfl
  · rfl

/-- C2 as amended: for every input string, the output of `sanitize_string`
contains none of the nine single reserved characters nor `'$'`, and has no
leading or trailing whitespace (stripping it again is the identity); the
substring `".exe"` however may survive, as the counterexample shows. -/
theorem sanitize_string_removes_singles_and_strips (s : List Char) :
    (∀ c, c ∈ reserved_chars ++ ['$'] → c ∉ sanitize_string s) ∧
    pyStrip (sanitize_string s) = sanitize_string s := by
  refine ⟨fun c hc => sanitize_no_single c ?_ s, sanitize_stripped s⟩
  fin_cases hc <;> decide

/-- Witness for `sanitize_string_removes_singles_and_strips` at `c = '$'` and
`s = " a$b "`. -/
theorem sanitize_string_removes_singles_and_strips_witness :
    '$' ∈ reserved_chars ++ ['$'] ∧ '$' ∉ sanitize_string " a$b ".toList :=
  ⟨by decide, (sanitize_string_removes_singles_and_strips " a$b ".toList).1 '$' (by decide)⟩

/-- C3 counterexample: the sanitizer is not idempotent — `".ex$e"` sanitizes
to `".exe"`, which sanitizes further to `""`. -/
theorem sanitize_string_not_idempotent :
    sanitize_string (sanitize_string ".ex$e".toList) ≠ sanitize_string ".ex$e".toList := by
  decide

/-- C3 as amended: `sanitize_string` is idempotent on every input whose
sanitized output does not contain the substring `".exe"` (the only disallowed
pattern a later removal pass can re-create). -/
theorem sanitize_string_idempotent_of_no_exe (s : List Char)
    (h : pyContains ['.', 'e', 'x', 'e'] (sanitize_string s) = false) :
    sanitize_string (sanitize_string s) = sanitize_string s := by
  have hid : ∀ ch ∈ disallowed_chars, sanitize_step (sanitize_string s) ch = sanitize_string s := by
    intro ch hch
    apply sanitize_step_eq_self
    fin_cases hch
    · exact pyContains_eq_false_of_not_mem _ _ (sanitize_no_single '\\' (by decide) s)
    · exact pyContains_eq_false_of_not_mem _ _ (sanitize_no_single '/' (by decide) s)
    · exact pyContains_eq_false_of_not_mem _ _ (sanitize_no_single ':' (by decide) s)
    · exact pyContains_eq_false_of_not_mem _ _ (sanitize_no_single '*' (by decide) s)
    · exact pyContains_eq_false_of_not_mem _ _ (sanitize_no_single '?' (by decide) s)
    · exact pyContains_eq_false_of_not_mem _ _ (sanitize_no_single '"' (by decide) s)
    · exact pyContains_eq_false_of_not_mem _ _ (sanitize_no_single '<' (by decide) s)
    · exact pyContains_eq_false_of_not_mem _ _ (sanitize_no_single '>' (by decide) s)
    · exact pyContains_eq_false_of_not_mem _ _ (sanitize_no_single '|' (by decide) s)
    · exact h
    · exact pyContains_eq_false_of_not_mem _ _ (sanitize_no_single '$' (by decide) s)
  calc sanitize_string (sanitize_string s)
      = pyStrip (List.foldl sanitize_step (sanitize_string s) disallowed_chars) := rfl
    _ = pyStrip (sanitize_string s) := by
          rw [foldl_sanitize_step_fixed (sanitize_string s) disallowed_chars hid]
    _ = sanitize_string s := sanitize_stripped s

/-- Witness for `sanitize_string_idempotent_of_no_exe` at `s = " a\b "`. -/
theorem sanitize_string_idempotent_of_no_exe_witness :
    pyContains ['.', 'e', 'x', 'e'] (sanitize_string " a\\b ".toList) = false ∧
    sanitize_string (sanitize_string " a\\b ".toList) = sanitize_string " a\\b ".toList :=
  ⟨by decide, sanitize_string_idempotent_of_no_exe " a\\b ".toList (by decide)⟩

/-! ### Claim theorems: the relocator and the adapters -/

theorem move_video_some (cfg : Config) (p e : List Char) (vi : Option (List Char))
    (w : List Char) :
    move_video cfg p (some e) vi w = some (move_video_resolved cfg p (resolved_label vi w)) :=
  rfl

/-- C9: end-to-end example — source `C:\Vids\Replay 2024-01-01.mp4`, resolved
label `"Game One"`, no base directory, both options enabled: the file is moved
to `C:\Vids\Game One\Game One 2024-01-01.mp4`, after ensuring the subfolder
`C:\Vids\Game One` exists. -/
theorem move_video_end_to_end_example :
    move_video ⟨none, true, true⟩ "C:\\Vids\\Replay 2024-01-01.mp4".toList
      (some "game.exe".toList) (some "Game One".toList) [] =
      some { finalPath := "C:\\Vids\\Game One\\Game One 2024-01-01.mp4".toList,
             ensuredDir := some "C:\\Vids\\Game One".toList } := by
  rfl

/-- C1 evaluation at the failing input: with an empty resolved label, the
Windowsapps fallback disabled and no base directory configured, `move_video`
is not a no-op — control falls through the `if not sub_dir` block with
`sub_dir` still empty, `"Replay"` is replaced by the empty string in the
filename, and the file `C:\Vids\Replay 2024-01-01.mp4` is renamed to
`C:\Vids\ 2024-01-01.mp4`. -/
theorem move_video_empty_label_no_base_renames :
    move_video ⟨none, true, false⟩ "C:\\Vids\\Replay 2024-01-01.mp4".toList
      (some "game.exe".toList) none [] =
      some { finalPath := "C:\\Vids\\ 2024-01-01.mp4".toList,
             ensuredDir := some "C:\\Vids\\".toList } ∧
    "C:\\Vids\\ 2024-01-01.mp4".toList ≠ "C:\\Vids\\Replay 2024-01-01.mp4".toList := by
  constructor
  · rfl
  · decide

/-- C5: whenever the resolved label is empty and the Windowsapps fallback is
enabled, the destination directory appended under the destination root is the
fixed placeholder `"Windowsapps"` (and, with the prepend option on, the
placeholder also replaces `"Replay"` in the filename). -/
theorem move_video_windowsapps_fallback (cfg : Config) (p e : List Char)
    (vi : Option (List Char)) (w : List Char)
    (h1 : resolved_label vi w = []) (h2 : cfg.use_windowsapps = true) :
    move_video cfg p (some e) vi w =
      some { finalPath := ntjoin (ntjoin (dest_root cfg p) "Windowsapps".toList)
               (if cfg.prepend_window_name then
                  pyReplace "Replay".toList "Windowsapps".toList (ntsplit p).2
                else (ntsplit p).2),
             ensuredDir := some (ntjoin (dest_root cfg p) "Windowsapps".toList) } := by
  rw [move_video_some, h1]
  rw [move_video_resolved, dest_root]
  simp [h2]

/-- Witness for `move_video_windowsapps_fallback`: empty label, fallback on,
no base directory; the file lands in the `Windowsapps` subfolder. -/
theorem move_video_windowsapps_fallback_witness :
    resolved_label none " ".toList = [] ∧
    move_video ⟨none, true, true⟩ "C:\\V\\Replay x.mp4".toList (some "e".toList)
      none " ".toList =
      some { finalPath := "C:\\V\\Windowsapps\\Windowsapps x.mp4".toList,
             ensuredDir := some "C:\\V\\Windowsapps".toList } :=
  ⟨by decide,
   (move_video_windowsapps_fallback ⟨none, true, true⟩ "C:\\V\\Replay x.mp4".toList
      "e".toList none " ".toList (by decide) (by decide)).trans (by decide)⟩

/-- C6: whenever the resolved label is empty, the Windowsapps fallback is
disabled and a (truthy) base directory is configured, the file is moved
directly into the base directory with its filename unchanged, and the
operation stops there: no directory is created and no renaming happens. -/
theorem move_video_empty_label_base_dir (cfg : Config) (p e : List Char)
    (vi : Option (List Char)) (w : List Char)
    (h1 : resolved_label vi w = []) (h2 : cfg.use_windowsapps = false)
    (h3 : base_dir_set cfg = true) :
    move_video cfg p (some e) vi w =
      some { finalPath := ntjoin (cfg.base_dir.getD []) (ntsplit p).2,
             ensuredDir := none } := by
  rw [move_video_some, h1]
  rw [move_video_resolved]
  simp [h2, h3]

/-- Witness for `move_video_empty_label_base_dir`: base directory `D:\Clips`,
unresolved label, fallback disabled — the file is moved, not renamed, to
`D:\Clips\Replay 2024-01-01.mp4`. -/
theorem move_video_empty_label_base_dir_witness :
    resolved_label none [] = [] ∧
    move_video ⟨some "D:\\Clips".toList, true, false⟩
      "C:\\Vids\\Replay 2024-01-01.mp4".toList (some "e".toList) none [] =
      some { finalPath := "D:\\Clips\\Replay 2024-01-01.mp4".toList,
             ensuredDir := none } :=
  ⟨by decide,
   (move_video_empty_label_base_dir ⟨some "D:\\Clips".toList, true, false⟩
      "C:\\Vids\\Replay 2024-01-01.mp4".toList "e".toList none []
      (by decide) (by decide) (by decide)).trans (by decide)⟩

/-- C4: whenever the resolved label is non-empty, the destination filename is
the original filename with every occurrence of `"Replay"` replaced by the
(sanitized) label if the prepend option is enabled, and the original filename
unchanged if it is disabled — in both cases the file goes into the
`<root>\<label>` subfolder. -/
theorem move_video_filename_replaces_label (cfg : Config) (p e : List Char)
    (vi : Option (List Char)) (w : List Char)
    (h : resolved_label vi w ≠ []) :
    move_video cfg p (some e) vi w =
      some { finalPath := ntjoin (ntjoin (dest_root cfg p) (resolved_label vi w))
               (if cfg.prepend_window_name then
                  pyReplace "Replay".toList (resolved_label vi w) (ntsplit p).2
                else (ntsplit p).2),
             ensuredDir := some (ntjoin (dest_root cfg p) (resolved_label vi w)) } := by
  rw [move_video_some]
  rw [move_video_resolved, dest_root]
  have hne : (resolved_label vi w).isEmpty = false := by
    cases hrl : resolved_label vi w with
    | nil => exact absurd hrl h
    | cons a t => rfl
  simp [hne]

/-- Witness for `move_video_filename_replaces_label`: label `"App"`, prepend
enabled — `Replay x.mp4` becomes `App x.mp4` inside subfolder `App`. -/
theorem move_video_filename_replaces_label_witness :
    resolved_label (some "App".toList) [] ≠ [] ∧
    move_video ⟨none, true, true⟩ "C:\\V\\Replay x.mp4".toList (some "e".toList)
      (some "App".toList) [] =
      some { finalPath := "C:\\V\\App\\App x.mp4".toList,
             ensuredDir := some "C:\\V\\App".toList } :=
  ⟨by decide,
   (move_video_filename_replaces_label ⟨none, true, true⟩ "C:\\V\\Replay x.mp4".toList
      "e".toList (some "App".toList) [] (by decide)).trans (by decide)⟩

/-- C7: `event_handler` always returns normally — for every event id and every
outcome of the guarded `move_video()` call, including any exception it raises,
the handler's own exception channel is `ok`; a raised exception is caught by
the `except BaseException` arm and only its string form is logged. -/
theorem event_handler_never_propagates (event saved_id : Nat)
    (mv : Except (List Char) MoveResult) :
    ∃ logged : Option (List Char), event_handler event saved_id mv = Except.ok logged := by
  unfold event_handler
  split
  · cases mv with
    | ok r => exact ⟨none, rfl⟩
    | error e => exact ⟨some e, rfl⟩
  · exact ⟨none, rfl⟩

/-- C8 counterexample: not every process-metadata failure is tolerated — the
executable-path lookup (`get_focused_window_executable_path`, called at
line 86) sits outside the `try` block, so when it raises (modelled by the
first argument `none`) the exception escapes `get_focused_application_name`
instead of yielding the empty string. -/
theorem get_focused_application_name_exe_failure_raises :
    get_focused_application_name none (some "Game".toList) = none ∧
    get_focused_application_name none (some "Game".toList) ≠ some [] := by
  constructor
  · rfl
  · decide

/-- C8 as amended: when the executable-path lookup succeeds,
`get_focused_application_name` never raises — in particular a failure of the
file-version-info lookup (second argument `none`) is caught by the bare
`except` and yields the empty string. -/
theorem get_focused_application_name_version_info_failure_empty :
    (∀ e : List Char, get_focused_application_name (some e) none = some []) ∧
    (∀ (e : List Char) (vi : Option (List Char)),
      ∃ r, get_focused_application_name (some e) vi = some r) := by
  constructor
  · intro e
    rfl
  · intro e vi
    exact ⟨_, rfl⟩

end ReplayBufferXtender
